import Mathlib

/-!
Verification of the Aurum Atelier AR try-on script (src/script.js).

The development shallowly embeds the app's mutable globals as an explicit
state record and each relevant function as a state transformer:

* `navigateJewelry`, `selectJewelryType` and the thumbnail click handler
  (`pickJewelry`) model the navigation/selection code;
* `preloadCategory` models the asset cache population;
* `toggleTryAll` / `startAutoTry` / `stopAutoTry` / `runAutoStep` /
  `captureToGallery` model the auto-capture sequencer, with the body of the
  scheduled `setTimeout` callback embedded as `autoStepTimeout` (an
  uninterrupted run applies it once per catalog item; `clearTimeout` in
  `stopAutoTry` is modelled by simply not applying it after a cancel);
* the `hands.onResults` gesture callback is embedded as `handsOnResults`,
  returning the (at most one) swipe event it emits for the frame.

JavaScript particulars are modelled explicitly: `%` on numbers is the
truncated remainder `Int.tmod`; `Array.prototype.indexOf` returns `-1` when
the element (or `null`) is absent (`jsIndexOf`); out-of-range/negative array
reads yield `undefined`, modelled as `none` (`jsArrayGet`); the truthiness
tests `!currentType` and `!preloadedAssets[currentType]` are the empty-string
and missing-key tests.  `Image` objects are compared by reference in JS; the
cached images are pairwise distinct fresh objects addressed by
`{category}/{1-based index}.png`, so they are faithfully represented by the
pair of category name and 1-based index (`Img`).  Times (`Date.now()`) are
integer milliseconds; normalized landmark coordinates are rationals.
-/

namespace AurumAtelier

/-- A preloaded jewelry image: JS `Image` objects are compared by reference,
and every cached image is a fresh object uniquely determined by its category
and 1-based file index, so that pair is its identity. -/
structure Img where
  cat : String
  idx : Nat
deriving DecidableEq, Repr

/-- The `preloadedAssets` object: a finite map from category name to the
cached list of images, modelled as an association list. -/
abbrev Cache := List (String × List Img)

/-- Property lookup `preloadedAssets[type]`; `none` is JS `undefined`. -/
def lookupCache (t : String) : Cache → Option (List Img)
  | [] => none
  | (k, v) :: rest => if k = t then some v else lookupCache t rest

/-- The `IMAGE_COUNTS` constant of script.js; `none` is `undefined` for an
unknown key. -/
def IMAGE_COUNTS (t : String) : Option Nat :=
  if t = "gold_earrings" then some 5
  else if t = "gold_necklaces" then some 5
  else if t = "diamond_earrings" then some 5
  else if t = "diamond_necklaces" then some 6
  else none

/-- `preloadCategory(type)`: returns immediately when the key is already
present (even when its value is the empty array, which is truthy); otherwise
stores the list of images `type/1.png .. type/count.png`.  When
`IMAGE_COUNTS[type]` is `undefined` the JS loop `for (i=1; i<=count; i++)`
never runs, leaving the empty list. -/
def preloadCategory (ty : String) (cache : Cache) : Cache :=
  match lookupCache ty cache with
  | some _ => cache
  | none =>
    let imgs : List Img :=
      match IMAGE_COUNTS ty with
      | some c => (List.range c).map (fun i => ⟨ty, i + 1⟩)
      | none => []
    (ty, imgs) :: cache

/-- A captured snapshot.  `captureToGallery` stores `canvas.toDataURL()`, a
raster of the rendered frame; the renderer (external face-mesh callback)
composites exactly the currently selected earring and necklace images, so a
snapshot is determined by that pair of selections at capture time. -/
abbrev Snap := Option Img × Option Img

/-- The mutable globals of script.js that the navigation, selection and
auto-capture code reads or writes. -/
structure AppState where
  earringImg : Option Img
  necklaceImg : Option Img
  currentType : String
  cache : Cache
  autoTryRunning : Bool
  autoSnapshots : List Snap
  autoTryIndex : Nat
  galleryShown : Bool
deriving DecidableEq, Repr

/-- The initial values of the globals (`earringImg = necklaceImg = null`,
`currentType = ''`, empty cache, sequencer idle, gallery closed). -/
def initState : AppState :=
  { earringImg := none, necklaceImg := none, currentType := "", cache := []
    autoTryRunning := false, autoSnapshots := [], autoTryIndex := 0
    galleryShown := false }

/-- Boolean prefix test on character lists (pattern second). -/
def listStartsWith : List Char → List Char → Bool
  | _, [] => true
  | [], _ :: _ => false
  | c :: s, d :: t => c = d && listStartsWith s t

/-- Boolean infix test on character lists (pattern first). -/
def listHasInfix (pat : List Char) : List Char → Bool
  | [] => listStartsWith [] pat
  | c :: s => listStartsWith (c :: s) pat || listHasInfix pat s

/-- JS `s.includes(pat)`: substring containment. -/
def jsIncludes (s pat : String) : Bool :=
  listHasInfix pat.toList s.toList

/-- The assignment pattern `if (type.includes('earrings')) earringImg = v;
else necklaceImg = v;` shared by `navigateJewelry`, the thumbnail click
handler and `runAutoStep`. -/
def setSlot (ty : String) (v : Option Img) (s : AppState) : AppState :=
  if jsIncludes ty "earrings" then { s with earringImg := v }
  else { s with necklaceImg := v }

/-- The read `type.includes('earrings') ? earringImg : necklaceImg`. -/
def slotOf (ty : String) (s : AppState) : Option Img :=
  if jsIncludes ty "earrings" then s.earringImg else s.necklaceImg

/-- The slot that the category `ty` does not address. -/
def coSlot (ty : String) (s : AppState) : Option Img :=
  if jsIncludes ty "earrings" then s.necklaceImg else s.earringImg

/-- JS `list.indexOf(v)` for an element: index of the first occurrence, `-1`
when absent. -/
def jsIndexOfElem (v : Img) : List Img → Int
  | [] => -1
  | a :: rest =>
    if a = v then 0
    else
      let r := jsIndexOfElem v rest
      if r = -1 then -1 else r + 1

/-- JS `list.indexOf(x)` where `x` may be `null` (never an element of an
array of images, hence `-1`). -/
def jsIndexOf (x : Option Img) (l : List Img) : Int :=
  match x with
  | none => -1
  | some v => jsIndexOfElem v l

/-- JS array read `list[i]` at a possibly negative index: `undefined`
(`none`) outside `[0, length)`. -/
def jsArrayGet (l : List Img) (i : Int) : Option Img :=
  if i < 0 then none else l.get? i.toNat

/-- `navigateJewelry(dir)` (script.js:191-203).  Guard: `!currentType ||
!preloadedAssets[currentType]`.  The new index is
`(indexOf(current) + dir + length) % length` with the JS truncated
remainder. -/
def navigateJewelry (dir : Int) (s : AppState) : AppState :=
  if s.currentType = "" then s
  else
    match lookupCache s.currentType s.cache with
    | none => s
    | some list =>
      let currentImg := slotOf s.currentType s
      let idx := jsIndexOf currentImg list
      let nextIdx := Int.tmod (idx + dir + list.length) list.length
      let nextItem := jsArrayGet list nextIdx
      setSlot s.currentType nextItem s

/-- `selectJewelryType(type)` (script.js:205-224): sets `currentType`,
preloads the category, and rebuilds the thumbnail buttons (DOM only; the
installed click handlers are modelled by `pickJewelry`).  It does not write
`earringImg` or `necklaceImg`. -/
def selectJewelryType (ty : String) (s : AppState) : AppState :=
  { s with currentType := ty, cache := preloadCategory ty s.cache }

/-- The `onclick` closure installed by `selectJewelryType` for the `i`-th
thumbnail (1-based): `fullImg = preloadedAssets[type][i-1]` assigned to the
slot for `type`.  The `none` branch (key absent) is unreachable in the app:
`selectJewelryType` always preloads the category before installing the
handler. -/
def pickJewelry (ty : String) (i : Nat) (s : AppState) : AppState :=
  match lookupCache ty s.cache with
  | some l => setSlot ty (jsArrayGet l ((i : Int) - 1)) s
  | none => s

/-- `captureToGallery()` (script.js:291-301): appends a snapshot of the
rendered canvas (the current selection pair) to `autoSnapshots`; the flash
overlay is DOM only. -/
def captureToGallery (s : AppState) : AppState :=
  { s with autoSnapshots := s.autoSnapshots ++ [(s.earringImg, s.necklaceImg)] }

/-- `stopAutoTry()` (script.js:258-267): clears the running flag, cancels the
pending timeout (modelled by never applying `autoStepTimeout` after this),
and shows the gallery when `autoSnapshots` is non-empty. -/
def stopAutoTry (s : AppState) : AppState :=
  { s with autoTryRunning := false
           galleryShown := if 0 < s.autoSnapshots.length then true else s.galleryShown }

/-- `runAutoStep()` (script.js:269-289) up to scheduling: returns when not
running; stops when the catalog is absent or exhausted; otherwise assigns
`assets[autoTryIndex]` to the category's slot and schedules the timeout
(whose body is `autoStepTimeout`). -/
def runAutoStep (s : AppState) : AppState :=
  if s.autoTryRunning = false then s
  else
    match lookupCache s.currentType s.cache with
    | none => stopAutoTry s
    | some assets =>
      if assets.length ≤ s.autoTryIndex then stopAutoTry s
      else setSlot s.currentType (assets.get? s.autoTryIndex) s

/-- `startAutoTry()` (script.js:246-256): sets the running flag, clears the
snapshots, resets the step index (button DOM ignored) and calls
`runAutoStep()`. -/
def startAutoTry (s : AppState) : AppState :=
  runAutoStep { s with autoTryRunning := true, autoSnapshots := [], autoTryIndex := 0 }

/-- The user-visible failure from `toggleTryAll` (the `alert`). -/
inductive UserMessage
  | noCategorySelected
deriving DecidableEq, Repr

/-- `toggleTryAll()` (script.js:233-244): alerts and returns when no category
is selected; otherwise toggles between stopping and starting. -/
def toggleTryAll (s : AppState) : AppState × Option UserMessage :=
  if s.currentType = "" then (s, some UserMessage.noCategorySelected)
  else if s.autoTryRunning then (stopAutoTry s, none)
  else (startAutoTry s, none)

/-- Body of the `setTimeout` callback scheduled by `runAutoStep`
(script.js:284-288): `captureToGallery(); autoTryIndex++; runAutoStep();`. -/
def autoStepTimeout (s : AppState) : AppState :=
  let s1 := captureToGallery s
  let s2 := { s1 with autoTryIndex := s1.autoTryIndex + 1 }
  runAutoStep s2

/-- `n` consecutive firings of the scheduled timeout: an uninterrupted run
lets every scheduled timeout fire. -/
def autoStepTimeouts (n : Nat) (s : AppState) : AppState :=
  autoStepTimeout^[n] s

/-- The constant `GESTURE_COOLDOWN = 800` ms (script.js:24). -/
def GESTURE_COOLDOWN : Int := 800

/-- The constant `SWIPE_THRESHOLD = 0.04` (script.js:103) in normalized
units. -/
def SWIPE_THRESHOLD : Rat := 4 / 100

/-- A swipe event emitted by the gesture callback; `next` is the
`navigateJewelry(1)` branch, `prev` the `navigateJewelry(-1)` branch. -/
inductive SwipeDir
  | next
  | prev
deriving DecidableEq, Repr

/-- One invocation of the `hands.onResults` callback: whether a hand was
detected, the horizontal position of landmark 8 (meaningful only when
`hasHand`), the value of `Date.now()`, and the ambient `autoTryRunning`
flag. -/
structure Frame where
  hasHand : Bool
  x : Rat
  now : Int
  autoTryRunning : Bool
deriving DecidableEq, Repr

/-- The gesture tracker globals `previousHandX` and `lastGestureTime`
(script.js:23-25); `lastGestureTime` is initially `0`. -/
structure GState where
  previousHandX : Option Rat
  lastGestureTime : Int
deriving DecidableEq, Repr

/-- The gesture tracker at page load. -/
def initGState : GState := { previousHandX := none, lastGestureTime := 0 }

/-- The `hands.onResults` callback (script.js:81-125), restricted to the
gesture tracker state; the returned event is the `navigateJewelry(±1)` call
it performs.  When no hand is detected, `updateHandIndicator(false)` resets
`previousHandX`; then the callback returns early when no hand is present or
a run is active; then the cooldown guard; then the threshold comparison
against the tracked baseline; finally the trailing
`if (now - lastGestureTime > 100) previousHandX = currentX` history
update. -/
def handsOnResults (f : Frame) (g : GState) : GState × Option SwipeDir :=
  if f.hasHand = false then ({ g with previousHandX := none }, none)
  else if f.autoTryRunning then (g, none)
  else if f.now - g.lastGestureTime < GESTURE_COOLDOWN then (g, none)
  else
    let fireResult : GState × Option SwipeDir :=
      match g.previousHandX with
      | some prev =>
        if f.x - prev < -SWIPE_THRESHOLD then
          ({ previousHandX := none, lastGestureTime := f.now }, some SwipeDir.next)
        else if SWIPE_THRESHOLD < f.x - prev then
          ({ previousHandX := none, lastGestureTime := f.now }, some SwipeDir.prev)
        else (g, none)
      | none => (g, none)
    let g1 := fireResult.1
    (if 100 < f.now - g1.lastGestureTime then { g1 with previousHandX := some f.x }
     else g1,
     fireResult.2)

/-- A stream of frames through the gesture callback, collecting the
timestamps of the emitted events in order. -/
def gestureRun : GState → List Frame → GState × List Int
  | g, [] => (g, [])
  | g, f :: fs =>
    let r := handsOnResults f g
    let rest := gestureRun r.1 fs
    (rest.1, (match r.2 with | some _ => [f.now] | none => []) ++ rest.2)

/-- How a snapshot looks when, at capture time, the slot addressed by `ty`
holds `v` and the other slot holds `c`. -/
def snapPair (ty : String) (v c : Option Img) : Snap :=
  if jsIncludes ty "earrings" then (v, c) else (c, v)

/-- The image of category `ty` rendered in a snapshot. -/
def snapSlot (ty : String) (p : Snap) : Option Img :=
  if jsIncludes ty "earrings" then p.1 else p.2

/-- The wrapped index produced by the modulo computation, as a `Nat`. -/
def wrapIdx (a : Int) (N : Nat) : Nat := (a % (N : Int)).toNat

/-- Concrete example state: the gold necklaces category selected on a fresh
page (used to exercise the definitions at concrete inputs). -/
def exNeck : AppState := selectJewelryType "gold_necklaces" initState

/-- The cached gold necklaces catalog of `exNeck`. -/
def exCatalog : List Img := (List.range 5).map (fun i => ⟨"gold_necklaces", i + 1⟩)

/-- Concrete example state: `exNeck` with catalog item 1 explicitly picked. -/
def exPick : AppState := pickJewelry "gold_necklaces" 1 exNeck

/-- Concrete example frame stream: a baseline sample, a large leftward jump
(fires), a fresh baseline after the cooldown, and a second jump (fires). -/
def exFrames : List Frame :=
  [⟨true, 0, 1000, false⟩, ⟨true, 1, 1900, false⟩,
   ⟨true, 0, 2800, false⟩, ⟨true, 1, 3000, false⟩]

/-- Concrete example frame for a single qualifying swipe. -/
def exSwipeFrame : Frame := ⟨true, 1, 1000, false⟩

/-- Concrete example tracker state with a baseline at position 0. -/
def exSwipeG : GState := ⟨some 0, 0⟩

section Helpers

theorem setSlot_currentType (ty : String) (v : Option Img) (s : AppState) :
    (setSlot ty v s).currentType = s.currentType := by
  unfold setSlot; split <;> rfl

theorem setSlot_cache (ty : String) (v : Option Img) (s : AppState) :
    (setSlot ty v s).cache = s.cache := by
  unfold setSlot; split <;> rfl

theorem setSlot_autoTryRunning (ty : String) (v : Option Img) (s : AppState) :
    (setSlot ty v s).autoTryRunning = s.autoTryRunning := by
  unfold setSlot; split <;> rfl

theorem setSlot_autoSnapshots (ty : String) (v : Option Img) (s : AppState) :
    (setSlot ty v s).autoSnapshots = s.autoSnapshots := by
  unfold setSlot; split <;> rfl

theorem setSlot_autoTryIndex (ty : String) (v : Option Img) (s : AppState) :
    (setSlot ty v s).autoTryIndex = s.autoTryIndex := by
  unfold setSlot; split <;> rfl

theorem setSlot_galleryShown (ty : String) (v : Option Img) (s : AppState) :
    (setSlot ty v s).galleryShown = s.galleryShown := by
  unfold setSlot; split <;> rfl

theorem slotOf_setSlot (ty : String) (v : Option Img) (s : AppState) :
    slotOf ty (setSlot ty v s) = v := by
  unfold slotOf setSlot; split <;> simp_all

theorem coSlot_setSlot (ty : String) (v : Option Img) (s : AppState) :
    coSlot ty (setSlot ty v s) = coSlot ty s := by
  unfold coSlot setSlot; split <;> simp_all

theorem setSlot_collapse (ty : String) (v w : Option Img) (s : AppState) :
    setSlot ty v (setSlot ty w s) = setSlot ty v s := by
  unfold setSlot; split <;> rfl

theorem setSlot_slotOf_self (ty : String) (s : AppState) :
    setSlot ty (slotOf ty s) s = s := by
  unfold setSlot slotOf; split <;> rfl

theorem capture_eq_snapPair (ty : String) (s : AppState) :
    (s.earringImg, s.necklaceImg) = snapPair ty (slotOf ty s) (coSlot ty s) := by
  unfold snapPair slotOf coSlot; split <;> rfl

theorem snapSlot_snapPair (ty : String) (v c : Option Img) :
    snapSlot ty (snapPair ty v c) = v := by
  unfold snapSlot snapPair; split <;> rfl

theorem stopAutoTry_earringImg (s : AppState) :
    (stopAutoTry s).earringImg = s.earringImg := rfl

theorem stopAutoTry_necklaceImg (s : AppState) :
    (stopAutoTry s).necklaceImg = s.necklaceImg := rfl

end Helpers

/-- C6: calling `toggleTryAll` with no category selected emits the
user-visible NoCategorySelected message and leaves the whole state
unchanged; with a category selected and the sequencer idle, it emits no
message and the resulting state has an empty snapshot collection and step
index `0` (the clear/reset performed on entry to Running). -/
theorem toggle_no_category_and_entry_reset (s : AppState) :
    (s.currentType = "" → toggleTryAll s = (s, some UserMessage.noCategorySelected)) ∧
    (s.currentType ≠ "" → s.autoTryRunning = false →
      (toggleTryAll s).2 = none ∧
      (toggleTryAll s).1.autoSnapshots = [] ∧
      (toggleTryAll s).1.autoTryIndex = 0) := by
  constructor
  · intro h
    simp [toggleTryAll, h]
  · intro h hrun
    have h2 : (toggleTryAll s) = (startAutoTry s, none) := by
      simp [toggleTryAll, h, hrun]
    rw [h2]
    refine ⟨rfl, ?_⟩
    unfold startAutoTry runAutoStep
    dsimp only
    split
    · exact ⟨rfl, rfl⟩
    · split
      · exact ⟨rfl, rfl⟩
      · split
        · exact ⟨rfl, rfl⟩
        · rw [setSlot_autoSnapshots, setSlot_autoTryIndex]
          exact ⟨rfl, rfl⟩

/-- Witness for C6 at concrete inputs: the fresh state has no category and
is returned unchanged with the message; after selecting a category, toggling
emits no message and yields empty snapshots and index `0`. -/
theorem toggle_no_category_witness :
    (toggleTryAll initState = (initState, some UserMessage.noCategorySelected)) ∧
    ((toggleTryAll (selectJewelryType "gold_earrings" initState)).2 = none ∧
     (toggleTryAll (selectJewelryType "gold_earrings" initState)).1.autoSnapshots = [] ∧
     (toggleTryAll (selectJewelryType "gold_earrings" initState)).1.autoTryIndex = 0) :=
  ⟨(toggle_no_category_and_entry_reset initState).1 rfl,
   (toggle_no_category_and_entry_reset (selectJewelryType "gold_earrings" initState)).2
     (by decide) rfl⟩

/-- C10: every operation that assigns a slot image — `navigateJewelry`, the
thumbnail click handler, and the auto-capture step — writes only the earring
slot when the governing category name contains "earrings" and only the
necklace slot otherwise, leaving the other slot unchanged. -/
theorem slot_isolation (s : AppState) (ty : String) (i : Nat) (dir : Int) :
    (jsIncludes s.currentType "earrings" = true →
      (navigateJewelry dir s).necklaceImg = s.necklaceImg ∧
      (runAutoStep s).necklaceImg = s.necklaceImg) ∧
    (jsIncludes s.currentType "earrings" = false →
      (navigateJewelry dir s).earringImg = s.earringImg ∧
      (runAutoStep s).earringImg = s.earringImg) ∧
    (jsIncludes ty "earrings" = true →
      (pickJewelry ty i s).necklaceImg = s.necklaceImg) ∧
    (jsIncludes ty "earrings" = false →
      (pickJewelry ty i s).earringImg = s.earringImg) := by
  refine ⟨fun h => ⟨?_, ?_⟩, fun h => ⟨?_, ?_⟩, fun h => ?_, fun h => ?_⟩ <;>
    simp only [navigateJewelry, runAutoStep, pickJewelry, setSlot, stopAutoTry, h] <;>
    (repeat' split) <;> simp_all

/-- Witness for C10 at concrete inputs: with the earrings category current,
navigation, the click handler and the auto step leave the necklace slot
unchanged; dually for a necklaces category. -/
theorem slot_isolation_witness :
    ((navigateJewelry 1 (selectJewelryType "gold_earrings" initState)).necklaceImg =
      (selectJewelryType "gold_earrings" initState).necklaceImg ∧
     (runAutoStep (selectJewelryType "gold_earrings" initState)).necklaceImg =
      (selectJewelryType "gold_earrings" initState).necklaceImg) ∧
    ((navigateJewelry 1 (selectJewelryType "gold_necklaces" initState)).earringImg =
      (selectJewelryType "gold_necklaces" initState).earringImg) ∧
    ((pickJewelry "gold_earrings" 1 initState).necklaceImg = initState.necklaceImg) ∧
    ((pickJewelry "gold_necklaces" 1 initState).earringImg = initState.earringImg) :=
  ⟨(slot_isolation (selectJewelryType "gold_earrings" initState) "x" 0 1).1 (by decide),
   ⟨((slot_isolation (selectJewelryType "gold_necklaces" initState) "x" 0 1).2.1
       (by decide)).1,
    (slot_isolation initState "gold_earrings" 1 0).2.2.1 (by decide),
    (slot_isolation initState "gold_necklaces" 1 0).2.2.2 (by decide)⟩⟩

/-- C4 (amended): `selectJewelryType` sets the category, leaves both slot
selections unchanged (it performs no reset to "none"), and populates the
category's catalog lazily at most once: when the category is already cached
the cache is untouched, and in particular a second select of the same
category never repopulates it. -/
theorem select_no_reset_and_cache_once (ty : String) (s : AppState) :
    (selectJewelryType ty s).currentType = ty ∧
    (selectJewelryType ty s).earringImg = s.earringImg ∧
    (selectJewelryType ty s).necklaceImg = s.necklaceImg ∧
    (∀ l, lookupCache ty s.cache = some l → (selectJewelryType ty s).cache = s.cache) ∧
    (selectJewelryType ty (selectJewelryType ty s)).cache = (selectJewelryType ty s).cache := by
  refine ⟨rfl, rfl, rfl, ?_, ?_⟩
  · intro l hl
    simp [selectJewelryType, preloadCategory, hl]
  · show preloadCategory ty (preloadCategory ty s.cache) = preloadCategory ty s.cache
    unfold preloadCategory
    cases h : lookupCache ty s.cache with
    | some l => simp [h]
    | none => simp [h, lookupCache]

/-- Counterexample to C4 as stated: select gold earrings, pick item 1, then
select the category again.  After this last `selectJewelryType` (with no
subsequent pick) the earring slot still holds catalog item 1 — the selection
is not reset to "none". -/
theorem select_reset_counterexample :
    (selectJewelryType "gold_earrings"
      (pickJewelry "gold_earrings" 1
        (selectJewelryType "gold_earrings" initState))).earringImg =
      some ⟨"gold_earrings", 1⟩ ∧
    (selectJewelryType "gold_earrings"
      (pickJewelry "gold_earrings" 1
        (selectJewelryType "gold_earrings" initState))).earringImg ≠ none := by
  constructor
  · decide
  · decide

/-- Witness for the amended C4 at a concrete input: the already-cached
branch leaves the cache untouched. -/
theorem select_no_reset_witness :
    (selectJewelryType "gold_earrings" (selectJewelryType "gold_earrings" initState)).cache =
      (selectJewelryType "gold_earrings" initState).cache :=
  (select_no_reset_and_cache_once "gold_earrings"
      (selectJewelryType "gold_earrings" initState)).2.2.2.1
    ((List.range 5).map (fun i => ⟨"gold_earrings", i + 1⟩)) (by decide)

section Navigation

theorem jsIndexOfElem_of_not_mem (v : Img) (l : List Img) (h : v ∉ l) :
    jsIndexOfElem v l = -1 := by
  induction l with
  | nil => rfl
  | cons a rest ih =>
    have h1 : ¬ a = v := fun hav => h (hav ▸ List.mem_cons_self a rest)
    have h2 : v ∉ rest := fun hm => h (List.mem_cons_of_mem a hm)
    simp [jsIndexOfElem, if_neg h1, ih h2]

theorem jsIndexOfElem_get (l : List Img) (hnd : l.Nodup) (i : Nat) (v : Img)
    (h : l.get? i = some v) : jsIndexOfElem v l = i := by
  induction l generalizing i with
  | nil => simp at h
  | cons a rest ih =>
    rcases List.nodup_cons.mp hnd with ⟨ha, hrest⟩
    cases i with
    | zero =>
      simp only [List.get?] at h
      have hav : a = v := by injection h
      simp [jsIndexOfElem, hav]
    | succ j =>
      have hv : rest.get? j = some v := h
      have hmem : v ∈ rest := by
        rcases List.get?_eq_some.mp hv with ⟨hlt, hget⟩
        exact hget ▸ List.get_mem rest j hlt
      have hav : ¬ a = v := fun hav => ha (hav ▸ hmem)
      have hr := ih hrest j hv
      simp only [jsIndexOfElem, if_neg hav, hr]
      have hne : ((j : Int)) ≠ -1 := by omega
      rw [if_neg hne]
      push_cast
      ring

theorem wrapIdx_lt (a : Int) (N : Nat) (hN : 0 < N) : wrapIdx a N < N := by
  have h1 : 0 ≤ a % (N : Int) := Int.emod_nonneg a (by omega)
  have h2 : a % (N : Int) < N := Int.emod_lt_of_pos a (by omega)
  unfold wrapIdx
  omega

theorem wrapIdx_of_lt (i N : Nat) (hi : i < N) : wrapIdx (i : Int) N = i := by
  unfold wrapIdx
  rw [Int.emod_eq_of_lt (by omega) (by omega)]
  omega

/-- One navigation step from a wrapped index: adding the direction and the
length and reducing again advances the underlying integer index. -/
theorem wrap_step (x d : Int) (N : Nat) (hN : 0 < N) :
    (((wrapIdx x N : Nat) : Int) + d + N) % (N : Int) = (x + d) % (N : Int) := by
  unfold wrapIdx
  have h0 : 0 ≤ x % (N : Int) := Int.emod_nonneg x (by omega)
  rw [Int.toNat_of_nonneg h0]
  have h1 : x % (N : Int) + d + N = x % (N : Int) + (d + N) := by ring
  rw [h1, Int.emod_add_emod]
  have h2 : x + (d + N) = (x + d) + (N : Int) * 1 := by ring
  rw [h2, Int.add_mul_emod_self_left]

/-- Unfolding of `navigateJewelry` when the guard passes and the catalog is
cached. -/
theorem navigateJewelry_unfold (dir : Int) (s : AppState) (l : List Img)
    (hty : ¬ s.currentType = "") (hl : lookupCache s.currentType s.cache = some l) :
    navigateJewelry dir s =
      setSlot s.currentType
        (jsArrayGet l
          (Int.tmod (jsIndexOf (slotOf s.currentType s) l + dir + l.length) l.length)) s := by
  unfold navigateJewelry
  rw [if_neg hty, hl]

/-- When the current slot image is catalog item `i`, one navigation step by
`dir ∈ {+1, -1}` selects catalog item `wrapIdx (i + dir) N`. -/
theorem navigateJewelry_at (dir : Int) (hdir : dir = 1 ∨ dir = -1)
    (s : AppState) (l : List Img) (i : Nat)
    (hty : ¬ s.currentType = "") (hl : lookupCache s.currentType s.cache = some l)
    (hnd : l.Nodup) (hi : i < l.length) (hslot : slotOf s.currentType s = l.get? i) :
    navigateJewelry dir s =
      setSlot s.currentType (l.get? (wrapIdx ((i : Int) + dir) l.length)) s := by
  have hN : 0 < l.length := Nat.pos_of_ne_zero (by intro h0; rw [h0] at hi; omega)
  obtain ⟨v, hv⟩ : ∃ v, l.get? i = some v := by
    rw [List.get?_eq_get hi]; exact ⟨_, rfl⟩
  have hidx : jsIndexOf (slotOf s.currentType s) l = i := by
    rw [hslot, hv]
    exact jsIndexOfElem_get l hnd i v hv
  rw [navigateJewelry_unfold dir s l hty hl, hidx]
  have hnn : 0 ≤ (i : Int) + dir + l.length := by rcases hdir with h | h <;> subst h <;> omega
  rw [Int.tmod_eq_emod hnn (by omega)]
  have hstep : ((i : Int) + dir + l.length) % (l.length : Int) =
      ((i : Int) + dir) % (l.length : Int) := by
    have h2 : (i : Int) + dir + l.length = ((i : Int) + dir) + (l.length : Int) * 1 := by ring
    rw [h2, Int.add_mul_emod_self_left]
  rw [hstep]
  unfold jsArrayGet
  rw [if_neg (by
    have := Int.emod_nonneg ((i : Int) + dir) (b := (l.length : Int)) (by omega)
    omega)]
  rfl

/-- C7: with the selection on catalog item `i`, advancing `+1` and then `-1`
restores the entire state (in particular the original selection index). -/
theorem advance_then_back (s : AppState) (l : List Img) (i : Nat)
    (hty : ¬ s.currentType = "") (hl : lookupCache s.currentType s.cache = some l)
    (hnd : l.Nodup) (hi : i < l.length) (hslot : slotOf s.currentType s = l.get? i) :
    navigateJewelry (-1) (navigateJewelry 1 s) = s := by
  have hN : 0 < l.length := by omega
  have h1 := navigateJewelry_at 1 (Or.inl rfl) s l i hty hl hnd hi hslot
  set j1 := wrapIdx ((i : Int) + 1) l.length with hj1
  have hj1lt : j1 < l.length := wrapIdx_lt _ _ hN
  have hty1 : ¬ (navigateJewelry 1 s).currentType = "" := by
    rw [h1, setSlot_currentType]; exact hty
  have hl1 : lookupCache (navigateJewelry 1 s).currentType (navigateJewelry 1 s).cache =
      some l := by
    rw [h1, setSlot_currentType, setSlot_cache]; exact hl
  have hslot1 : slotOf (navigateJewelry 1 s).currentType (navigateJewelry 1 s) =
      l.get? j1 := by
    rw [h1, setSlot_currentType, slotOf_setSlot]
  have h2 := navigateJewelry_at (-1) (Or.inr rfl) (navigateJewelry 1 s) l j1
    hty1 hl1 hnd hj1lt hslot1
  rw [h2, h1, setSlot_currentType, setSlot_collapse]
  have hback : wrapIdx ((j1 : Int) + -1) l.length = i := by
    have hw : ((j1 : Int) + -1 + l.length) % (l.length : Int) =
        ((i : Int) + 1 + -1) % (l.length : Int) := wrap_step ((i : Int) + 1) (-1) l.length hN
    have hw2 : ((j1 : Int) + -1) % (l.length : Int) =
        ((j1 : Int) + -1 + l.length) % (l.length : Int) := by
      have h3 : (j1 : Int) + -1 + l.length = ((j1 : Int) + -1) + (l.length : Int) * 1 := by ring
      rw [h3, Int.add_mul_emod_self_left]
    unfold wrapIdx
    rw [hw2, hw]
    have h4 : (i : Int) + 1 + -1 = (i : Int) := by ring
    rw [h4, Int.emod_eq_of_lt (by omega) (by omega)]
    omega
  rw [hback, ← hslot, setSlot_slotOf_self]

/-- Iterating navigation in a fixed direction walks the integer index
`i + dir * k` reduced modulo the catalog length. -/
theorem navigateJewelry_iterate (dir : Int) (hdir : dir = 1 ∨ dir = -1)
    (s : AppState) (l : List Img) (i : Nat)
    (hty : ¬ s.currentType = "") (hl : lookupCache s.currentType s.cache = some l)
    (hnd : l.Nodup) (hi : i < l.length) (hslot : slotOf s.currentType s = l.get? i)
    (k : Nat) :
    (navigateJewelry dir)^[k] s =
      setSlot s.currentType (l.get? (wrapIdx ((i : Int) + dir * k) l.length)) s := by
  have hN : 0 < l.length := by omega
  induction k with
  | zero =>
    rw [Function.iterate_zero_apply]
    have h0 : wrapIdx ((i : Int) + dir * ((0 : Nat) : Int)) l.length = i := by
      have h00 : (i : Int) + dir * ((0 : Nat) : Int) = (i : Int) := by push_cast; ring
      rw [h00, wrapIdx_of_lt i l.length hi]
    rw [h0, ← hslot, setSlot_slotOf_self]
  | succ k ih =>
    rw [Function.iterate_succ_apply', ih]
    set jk := wrapIdx ((i : Int) + dir * k) l.length with hjk
    have hjklt : jk < l.length := wrapIdx_lt _ _ hN
    set t := setSlot s.currentType (l.get? jk) s with ht
    have htyt : ¬ t.currentType = "" := by rw [ht, setSlot_currentType]; exact hty
    have hlt : lookupCache t.currentType t.cache = some l := by
      rw [ht, setSlot_currentType, setSlot_cache]; exact hl
    have hslott : slotOf t.currentType t = l.get? jk := by
      rw [ht, setSlot_currentType, slotOf_setSlot]
    have hstep := navigateJewelry_at dir hdir t l jk htyt hlt hnd hjklt hslott
    rw [hstep, ht, setSlot_currentType, setSlot_collapse]
    have hidx : wrapIdx ((jk : Int) + dir) l.length =
        wrapIdx ((i : Int) + dir * ((k + 1 : Nat) : Int)) l.length := by
      have hw : ((jk : Int) + dir + l.length) % (l.length : Int) =
          ((i : Int) + dir * k + dir) % (l.length : Int) :=
        wrap_step ((i : Int) + dir * k) dir l.length hN
      have hw2 : ((jk : Int) + dir) % (l.length : Int) =
          ((jk : Int) + dir + l.length) % (l.length : Int) := by
        have h3 : (jk : Int) + dir + l.length = ((jk : Int) + dir) + (l.length : Int) * 1 := by
          ring
        rw [h3, Int.add_mul_emod_self_left]
      have h4 : (i : Int) + dir * k + dir = (i : Int) + dir * ((k + 1 : Nat) : Int) := by
        push_cast
        ring
      unfold wrapIdx
      rw [hw2, hw, h4]
    rw [hidx]

/-- C8: advancing `N` times in one direction returns the selection (indeed
the whole state) to where it started, and after each intermediate number of
steps the selection is some catalog item, i.e. the index stays within
bounds. -/
theorem advance_cycle (dir : Int) (hdir : dir = 1 ∨ dir = -1)
    (s : AppState) (l : List Img) (i : Nat)
    (hty : ¬ s.currentType = "") (hl : lookupCache s.currentType s.cache = some l)
    (hnd : l.Nodup) (hi : i < l.length) (hslot : slotOf s.currentType s = l.get? i) :
    (navigateJewelry dir)^[l.length] s = s ∧
    ∀ k, k ≤ l.length → ∃ j, j < l.length ∧
      slotOf s.currentType ((navigateJewelry dir)^[k] s) = l.get? j := by
  have hN : 0 < l.length := by omega
  constructor
  · rw [navigateJewelry_iterate dir hdir s l i hty hl hnd hi hslot l.length]
    have hcyc : wrapIdx ((i : Int) + dir * l.length) l.length = i := by
      unfold wrapIdx
      rw [Int.add_mul_emod_self, Int.emod_eq_of_lt (by omega) (by omega)]
      omega
    rw [hcyc, ← hslot, setSlot_slotOf_self]
  · intro k _
    refine ⟨wrapIdx ((i : Int) + dir * k) l.length, wrapIdx_lt _ _ hN, ?_⟩
    rw [navigateJewelry_iterate dir hdir s l i hty hl hnd hi hslot k, slotOf_setSlot]

/-- C9: when the current slot image is `null` or not an element of the cached
catalog (so `indexOf` yields `-1`), advancing `+1` selects catalog item `0`,
and advancing `-1` selects item `N - 2` when `N ≥ 2` and item `0` when
`N = 1`. -/
theorem advance_from_unlisted (s : AppState) (l : List Img)
    (hty : ¬ s.currentType = "") (hl : lookupCache s.currentType s.cache = some l)
    (hN : 0 < l.length)
    (hout : ∀ v, slotOf s.currentType s = some v → v ∉ l) :
    slotOf s.currentType (navigateJewelry 1 s) = l.get? 0 ∧
    (2 ≤ l.length →
      slotOf s.currentType (navigateJewelry (-1) s) = l.get? (l.length - 2)) ∧
    (l.length = 1 → slotOf s.currentType (navigateJewelry (-1) s) = l.get? 0) := by
  have hidx : jsIndexOf (slotOf s.currentType s) l = -1 := by
    cases hx : slotOf s.currentType s with
    | none => rfl
    | some v =>
      show jsIndexOfElem v l = -1
      exact jsIndexOfElem_of_not_mem v l (hout v hx)
  refine ⟨?_, ?_, ?_⟩
  · rw [navigateJewelry_unfold 1 s l hty hl, hidx]
    have h1 : (-1 : Int) + 1 + l.length = (l.length : Int) := by ring
    rw [h1, Int.tmod_eq_emod (by omega) (by omega), Int.emod_self]
    show slotOf s.currentType (setSlot s.currentType (jsArrayGet l 0) s) = l.get? 0
    rw [slotOf_setSlot]
    unfold jsArrayGet
    rw [if_neg (by omega)]
    rfl
  · intro h2
    rw [navigateJewelry_unfold (-1) s l hty hl, hidx]
    have h1 : (-1 : Int) + -1 + l.length = ((l.length - 2 : Nat) : Int) := by omega
    rw [h1, Int.tmod_eq_emod (by omega) (by omega),
      Int.emod_eq_of_lt (by omega) (by omega), slotOf_setSlot]
    unfold jsArrayGet
    rw [if_neg (by omega)]
    simp
  · intro h2
    rw [navigateJewelry_unfold (-1) s l hty hl, hidx, h2]
    have h1 : Int.tmod ((-1 : Int) + -1 + (1 : Nat)) (1 : Nat) = 0 := by decide
    rw [h1, slotOf_setSlot]
    unfold jsArrayGet
    rw [if_neg (by omega)]
    rfl

end Navigation

/-- Witness for C7 at a concrete input: with gold necklace 1 selected
(catalog index 0), advancing `+1` then `-1` restores the state. -/
theorem advance_then_back_witness :
    navigateJewelry (-1) (navigateJewelry 1 exPick) = exPick :=
  advance_then_back exPick exCatalog 0 (by decide) (by decide) (by decide) (by decide)
    (by decide)

/-- Witness for C8 at a concrete input: five forward advances on the
5-element gold necklaces catalog restore the state. -/
theorem advance_cycle_witness :
    (navigateJewelry 1)^[exCatalog.length] exPick = exPick :=
  (advance_cycle 1 (Or.inl rfl) exPick exCatalog 0 (by decide) (by decide) (by decide)
    (by decide) (by decide)).1

/-- Witness for C9 at a concrete input: from the freshly selected gold
necklaces category (no item selected), advancing `+1` selects item 1
(index 0) and advancing `-1` selects item 4 (index `N - 2 = 3`). -/
theorem advance_from_unlisted_witness :
    slotOf exNeck.currentType (navigateJewelry 1 exNeck) = exCatalog.get? 0 ∧
    slotOf exNeck.currentType (navigateJewelry (-1) exNeck) =
      exCatalog.get? (exCatalog.length - 2) := by
  have h := advance_from_unlisted exNeck exCatalog (by decide) (by decide) (by decide)
    (fun v hv => by
      rw [show slotOf exNeck.currentType exNeck = none from rfl] at hv
      exact Option.noConfusion hv)
  exact ⟨h.1, h.2.1 (by decide)⟩

section Sequencer

theorem runAutoStep_go (s : AppState) (l : List Img)
    (hrun : s.autoTryRunning = true)
    (hl : lookupCache s.currentType s.cache = some l)
    (hidx : s.autoTryIndex < l.length) :
    runAutoStep s = setSlot s.currentType (l.get? s.autoTryIndex) s := by
  unfold runAutoStep
  rw [if_neg (by rw [hrun]; simp)]
  simp only [hl]
  rw [if_neg (by omega)]

theorem runAutoStep_finish (s : AppState) (l : List Img)
    (hrun : s.autoTryRunning = true)
    (hl : lookupCache s.currentType s.cache = some l)
    (hidx : l.length ≤ s.autoTryIndex) :
    runAutoStep s = stopAutoTry s := by
  unfold runAutoStep
  rw [if_neg (by rw [hrun]; simp)]
  simp only [hl]
  rw [if_pos hidx]

theorem autoStepTimeout_eq (s : AppState) :
    autoStepTimeout s = runAutoStep { s with
      autoSnapshots := s.autoSnapshots ++ [(s.earringImg, s.necklaceImg)],
      autoTryIndex := s.autoTryIndex + 1 } := rfl

/-- One firing of the scheduled timeout from a mid-run state positioned on
catalog item `i`: it captures a snapshot of item `i`, increments the index,
and either continues on item `i + 1` or (after the last item) stops and
presents the gallery. -/
theorem autoStepTimeout_spec (s : AppState) (l : List Img) (co : Option Img) (i : Nat)
    (hl : lookupCache s.currentType s.cache = some l)
    (hrun : s.autoTryRunning = true) (hidx : s.autoTryIndex = i)
    (hslot : slotOf s.currentType s = l.get? i) (hco : coSlot s.currentType s = co)
    (hi : i < l.length) :
    (autoStepTimeout s).currentType = s.currentType ∧
    (autoStepTimeout s).cache = s.cache ∧
    (autoStepTimeout s).autoSnapshots =
      s.autoSnapshots ++ [snapPair s.currentType (l.get? i) co] ∧
    (autoStepTimeout s).autoTryIndex = i + 1 ∧
    coSlot s.currentType (autoStepTimeout s) = co ∧
    (i + 1 < l.length →
      (autoStepTimeout s).autoTryRunning = true ∧
      slotOf s.currentType (autoStepTimeout s) = l.get? (i + 1) ∧
      (autoStepTimeout s).galleryShown = s.galleryShown) ∧
    (i + 1 = l.length →
      (autoStepTimeout s).autoTryRunning = false ∧
      (autoStepTimeout s).galleryShown = true) := by
  have hcap : (s.earringImg, s.necklaceImg) = snapPair s.currentType (l.get? i) co := by
    rw [capture_eq_snapPair s.currentType s, hslot, hco]
  rw [autoStepTimeout_eq]
  set s2 : AppState := { s with
      autoSnapshots := s.autoSnapshots ++ [(s.earringImg, s.necklaceImg)],
      autoTryIndex := s.autoTryIndex + 1 } with hs2
  have hl2 : lookupCache s2.currentType s2.cache = some l := hl
  have hrun2 : s2.autoTryRunning = true := hrun
  by_cases hc : i + 1 < l.length
  · have hgo := runAutoStep_go s2 l hrun2 hl2 (by simp [hs2, hidx]; omega)
    rw [hgo]
    have hidx2 : s2.autoTryIndex = i + 1 := by simp [hs2, hidx]
    refine ⟨?_, ?_, ?_, ?_, ?_, fun _ => ⟨?_, ?_, ?_⟩, fun habs => absurd habs (by omega)⟩
    · rw [setSlot_currentType]
    · rw [setSlot_cache]
    · rw [setSlot_autoSnapshots]
      show s.autoSnapshots ++ [(s.earringImg, s.necklaceImg)] = _
      rw [hcap]
    · rw [setSlot_autoTryIndex, hidx2]
    · show coSlot s2.currentType (setSlot s2.currentType _ s2) = co
      rw [coSlot_setSlot]
      exact hco
    · rw [setSlot_autoTryRunning]; exact hrun2
    · show slotOf s2.currentType (setSlot s2.currentType _ s2) = _
      rw [slotOf_setSlot, hidx2]
    · rw [setSlot_galleryShown]
  · have hfin : l.length ≤ s2.autoTryIndex := by simp [hs2, hidx]; omega
    rw [runAutoStep_finish s2 l hrun2 hl2 hfin]
    have hi1 : i + 1 = l.length := by omega
    refine ⟨rfl, rfl, ?_, ?_, ?_, fun habs => absurd habs (by omega), fun _ => ⟨rfl, ?_⟩⟩
    · show s.autoSnapshots ++ [(s.earringImg, s.necklaceImg)] = _
      rw [hcap]
    · show s.autoTryIndex + 1 = i + 1
      rw [hidx]
    · show coSlot s2.currentType (stopAutoTry s2) = co
      unfold coSlot stopAutoTry
      exact hco
    · show (if 0 < s2.autoSnapshots.length then true else s2.galleryShown) = true
      rw [if_pos (by simp [hs2])]

/-- Running `k` timeout firings from a mid-run state positioned on item `i`,
with at least one item still to come afterwards, captures items
`i, i+1, …, i+k-1` in order and leaves the run active on item `i + k`. -/
theorem autoStepTimeouts_run (l : List Img) (co : Option Img) :
    ∀ (k i : Nat) (s : AppState),
    lookupCache s.currentType s.cache = some l →
    s.autoTryRunning = true → s.autoTryIndex = i →
    slotOf s.currentType s = l.get? i → coSlot s.currentType s = co →
    i + k < l.length →
    (autoStepTimeouts k s).currentType = s.currentType ∧
    (autoStepTimeouts k s).cache = s.cache ∧
    (autoStepTimeouts k s).autoTryRunning = true ∧
    (autoStepTimeouts k s).autoTryIndex = i + k ∧
    slotOf s.currentType (autoStepTimeouts k s) = l.get? (i + k) ∧
    coSlot s.currentType (autoStepTimeouts k s) = co ∧
    (autoStepTimeouts k s).galleryShown = s.galleryShown ∧
    (autoStepTimeouts k s).autoSnapshots =
      s.autoSnapshots ++
        (List.range k).map (fun j => snapPair s.currentType (l.get? (i + j)) co) := by
  intro k
  induction k with
  | zero =>
    intro i s hl hrun hidx hslot hco _
    exact ⟨rfl, rfl, hrun, hidx, hslot, hco, rfl, by simp [autoStepTimeouts]⟩
  | succ k ih =>
    intro i s hl hrun hidx hslot hco hik
    have hstep := autoStepTimeout_spec s l co i hl hrun hidx hslot hco (by omega)
    set t := autoStepTimeout s with htdef
    obtain ⟨hcty, hcch, hsnap, hidx1, hco1, hcont, _⟩ := hstep
    obtain ⟨hrun1, hslot1, hgal1⟩ := hcont (by omega)
    have hlt : lookupCache t.currentType t.cache = some l := by rw [hcty, hcch]; exact hl
    have hslot1' : slotOf t.currentType t = l.get? (i + 1) := by rw [hcty]; exact hslot1
    have hco1' : coSlot t.currentType t = co := by rw [hcty]; exact hco1
    have hrec := ih (i + 1) t hlt hrun1 hidx1 hslot1' hco1' (by omega)
    have hiter : autoStepTimeouts (k + 1) s = autoStepTimeouts k t := by
      simp only [autoStepTimeouts, htdef, Function.iterate_succ_apply]
    rw [hiter]
    obtain ⟨r1, r2, r3, r4, r5, r6, r7, r8⟩ := hrec
    refine ⟨by rw [r1, hcty], by rw [r2, hcch], r3, by omega, ?_, ?_, by rw [r7, hgal1],
      ?_⟩
    · rw [← hcty]
      rw [r5]
      congr 1
      omega
    · rw [← hcty]
      exact r6
    · rw [r8, hsnap, hcty]
      rw [List.append_assoc]
      congr 1
      rw [List.range_succ_eq_map, List.map_cons, List.map_map]
      simp only [List.singleton_append, Nat.add_zero]
      congr 1
      apply List.map_congr_left
      intro j _
      simp only [Function.comp]
      congr 2
      omega

/-- C1: starting an auto-capture run with a cached, populated catalog and
letting every scheduled timeout fire produces exactly `N` snapshots, the
`i`-th rendered with catalog item `i` selected in the category's slot, after
which the running flag is false. -/
theorem auto_capture_uninterrupted (s : AppState) (l : List Img)
    (hl : lookupCache s.currentType s.cache = some l) (hN : 0 < l.length) :
    (autoStepTimeouts l.length (startAutoTry s)).autoTryRunning = false ∧
    (autoStepTimeouts l.length (startAutoTry s)).autoSnapshots.length = l.length ∧
    (∀ i p,
      (autoStepTimeouts l.length (startAutoTry s)).autoSnapshots.get? i = some p →
      snapSlot s.currentType p = l.get? i) := by
  set s0 : AppState :=
    { s with autoTryRunning := true, autoSnapshots := [], autoTryIndex := 0 } with hs0
  have hstart : startAutoTry s = setSlot s.currentType (l.get? 0) s0 :=
    runAutoStep_go s0 l rfl hl hN
  set sm : AppState := setSlot s.currentType (l.get? 0) s0 with hsm
  set co : Option Img := coSlot s.currentType s with hcodef
  have hmty : sm.currentType = s.currentType := setSlot_currentType _ _ _
  have hml : lookupCache sm.currentType sm.cache = some l := by
    rw [hmty, setSlot_cache]; exact hl
  have hmrun : sm.autoTryRunning = true := by rw [setSlot_autoTryRunning]
  have hmidx : sm.autoTryIndex = 0 := by rw [setSlot_autoTryIndex]
  have hmslot : slotOf sm.currentType sm = l.get? 0 := by rw [hmty, slotOf_setSlot]
  have hmco : coSlot sm.currentType sm = co := by
    rw [hmty, coSlot_setSlot]; rfl
  have hmgal : sm.galleryShown = s.galleryShown := by rw [setSlot_galleryShown]
  have hmsnap : sm.autoSnapshots = [] := by rw [setSlot_autoSnapshots]
  obtain ⟨m, hm⟩ : ∃ n, l.length = n + 1 := ⟨l.length - 1, by omega⟩
  have hrunall := autoStepTimeouts_run l co m 0 sm hml hmrun hmidx hmslot hmco (by omega)
  obtain ⟨u1, u2, u3, u4, u5, u6, u7, u8⟩ := hrunall
  set u : AppState := autoStepTimeouts m sm with hu
  have hulty : u.currentType = s.currentType := by rw [u1, hmty]
  have hul : lookupCache u.currentType u.cache = some l := by
    rw [u1, u2]; exact hml
  have huslot : slotOf u.currentType u = l.get? m := by
    rw [u1]
    rw [Nat.zero_add] at u5
    exact u5
  have huco : coSlot u.currentType u = co := by rw [u1]; exact u6
  have hlast := autoStepTimeout_spec u l co m hul u3 (by omega) huslot huco (by omega)
  obtain ⟨w1, w2, w3, w4, w5, w6, w7⟩ := hlast
  obtain ⟨wrun, wgal⟩ := w7 (by omega)
  have hsplit : autoStepTimeouts l.length (startAutoTry s) = autoStepTimeout u := by
    rw [hstart, hm]
    exact Function.iterate_succ_apply' autoStepTimeout m sm
  have husnap : u.autoSnapshots =
      (List.range m).map (fun j => snapPair s.currentType (l.get? j) co) := by
    rw [u8, hmsnap, hmty]
    simp
  have htot : (autoStepTimeout u).autoSnapshots =
      (List.range (m + 1)).map (fun j => snapPair s.currentType (l.get? j) co) := by
    rw [w3, husnap, u1, hmty, List.range_succ, List.map_append]
    simp
  rw [hsplit]
  refine ⟨wrun, ?_, ?_⟩
  · rw [htot, List.length_map, List.length_range, hm]
  · intro i p hp
    rw [htot] at hp
    have hilt : i < m + 1 := by
      by_contra hge
      rw [List.get?_eq_none.mpr (by simp; omega)] at hp
      cases hp
    rw [List.get?_map, List.get?_range hilt] at hp
    have hpv : p = snapPair s.currentType (l.get? i) co := by
      injection hp with h
      exact h.symm
    rw [hpv, snapSlot_snapPair]

/-- Witness for C1 at a concrete input: the full run over the 5-element gold
necklaces catalog ends not running with exactly 5 snapshots. -/
theorem auto_capture_uninterrupted_witness :
    lookupCache exNeck.currentType exNeck.cache = some exCatalog ∧
    (autoStepTimeouts exCatalog.length (startAutoTry exNeck)).autoTryRunning = false ∧
    (autoStepTimeouts exCatalog.length (startAutoTry exNeck)).autoSnapshots.length =
      exCatalog.length :=
  ⟨by decide,
   (auto_capture_uninterrupted exNeck exCatalog (by decide) (by decide)).1,
   (auto_capture_uninterrupted exNeck exCatalog (by decide) (by decide)).2.1⟩

/-- C5: cancelling a run (with a cached catalog of length `N`) after exactly
`k < N` completed steps leaves exactly `k` snapshots — the pending in-flight
step captures nothing — the sequencer idle, and the gallery presented on
exit if and only if `k > 0`. -/
theorem cancel_after_k_steps (s : AppState) (l : List Img) (k : Nat)
    (hl : lookupCache s.currentType s.cache = some l)
    (hgal : s.galleryShown = false) (hk : k < l.length) :
    (stopAutoTry (autoStepTimeouts k (startAutoTry s))).autoSnapshots.length = k ∧
    (stopAutoTry (autoStepTimeouts k (startAutoTry s))).autoTryRunning = false ∧
    ((stopAutoTry (autoStepTimeouts k (startAutoTry s))).galleryShown = true ↔ 0 < k) := by
  have hN : 0 < l.length := by omega
  set s0 : AppState :=
    { s with autoTryRunning := true, autoSnapshots := [], autoTryIndex := 0 } with hs0
  have hstart : startAutoTry s = setSlot s.currentType (l.get? 0) s0 :=
    runAutoStep_go s0 l rfl hl hN
  set sm : AppState := setSlot s.currentType (l.get? 0) s0 with hsm
  set co : Option Img := coSlot s.currentType s with hcodef
  have hmty : sm.currentType = s.currentType := setSlot_currentType _ _ _
  have hml : lookupCache sm.currentType sm.cache = some l := by
    rw [hmty, setSlot_cache]; exact hl
  have hmrun : sm.autoTryRunning = true := by rw [setSlot_autoTryRunning]
  have hmidx : sm.autoTryIndex = 0 := by rw [setSlot_autoTryIndex]
  have hmslot : slotOf sm.currentType sm = l.get? 0 := by rw [hmty, slotOf_setSlot]
  have hmco : coSlot sm.currentType sm = co := by rw [hmty, coSlot_setSlot]; rfl
  have hmgal : sm.galleryShown = s.galleryShown := by rw [setSlot_galleryShown]
  have hmsnap : sm.autoSnapshots = [] := by rw [setSlot_autoSnapshots]
  have hrunall := autoStepTimeouts_run l co k 0 sm hml hmrun hmidx hmslot hmco (by omega)
  obtain ⟨u1, u2, u3, u4, u5, u6, u7, u8⟩ := hrunall
  set u : AppState := autoStepTimeouts k sm with hu
  have husnaplen : u.autoSnapshots.length = k := by
    rw [u8, hmsnap]
    simp
  have hugal : u.galleryShown = false := by rw [u7, hmgal, hgal]
  rw [hstart, ← hu]
  refine ⟨?_, rfl, ?_⟩
  · show u.autoSnapshots.length = k
    exact husnaplen
  · show (if 0 < u.autoSnapshots.length then true else u.galleryShown) = true ↔ 0 < k
    rw [husnaplen, hugal]
    by_cases h0 : 0 < k
    · simp [h0]
    · simp [h0]

/-- Witness for C5 at a concrete input: cancelling the gold necklaces run
after 2 completed steps leaves 2 snapshots, an idle sequencer, and the
gallery presented. -/
theorem cancel_after_k_steps_witness :
    (stopAutoTry (autoStepTimeouts 2 (startAutoTry exNeck))).autoSnapshots.length = 2 ∧
    (stopAutoTry (autoStepTimeouts 2 (startAutoTry exNeck))).autoTryRunning = false ∧
    ((stopAutoTry (autoStepTimeouts 2 (startAutoTry exNeck))).galleryShown = true ↔
      0 < 2) :=
  cancel_after_k_steps exNeck exCatalog 2 (by decide) (by decide) (by decide)

end Sequencer

section Gesture

theorem handsOnResults_noHand (f : Frame) (g : GState) (h : f.hasHand = false) :
    handsOnResults f g = ({ g with previousHandX := none }, none) := by
  unfold handsOnResults
  rw [if_pos h]

theorem handsOnResults_autoRunning (f : Frame) (g : GState) (h : f.hasHand = true)
    (ha : f.autoTryRunning = true) :
    handsOnResults f g = (g, none) := by
  unfold handsOnResults
  rw [if_neg (by rw [h]; simp), if_pos ha]

theorem handsOnResults_cooldown (f : Frame) (g : GState) (h : f.hasHand = true)
    (ha : f.autoTryRunning = false)
    (hc : f.now - g.lastGestureTime < GESTURE_COOLDOWN) :
    handsOnResults f g = (g, none) := by
  unfold handsOnResults
  rw [if_neg (by rw [h]; simp), if_neg (by rw [ha]; simp), if_pos hc]

theorem handsOnResults_noBaseline (f : Frame) (g : GState) (h : f.hasHand = true)
    (ha : f.autoTryRunning = false)
    (hc : ¬ f.now - g.lastGestureTime < GESTURE_COOLDOWN)
    (hp : g.previousHandX = none) :
    handsOnResults f g = ({ g with previousHandX := some f.x }, none) := by
  unfold handsOnResults
  rw [if_neg (by rw [h]; simp), if_neg (by rw [ha]; simp), if_neg hc]
  simp only [hp]
  rw [if_pos (by show (100 : Int) < f.now - g.lastGestureTime; unfold GESTURE_COOLDOWN at hc; omega)]

theorem handsOnResults_noFire (f : Frame) (g : GState) (p : Rat) (h : f.hasHand = true)
    (ha : f.autoTryRunning = false)
    (hc : ¬ f.now - g.lastGestureTime < GESTURE_COOLDOWN)
    (hp : g.previousHandX = some p)
    (h1 : ¬ f.x - p < -SWIPE_THRESHOLD) (h2 : ¬ SWIPE_THRESHOLD < f.x - p) :
    handsOnResults f g = ({ g with previousHandX := some f.x }, none) := by
  unfold handsOnResults
  rw [if_neg (by rw [h]; simp), if_neg (by rw [ha]; simp), if_neg hc]
  simp only [hp]
  rw [if_neg h1, if_neg h2]
  rw [if_pos (by show (100 : Int) < f.now - g.lastGestureTime; unfold GESTURE_COOLDOWN at hc; omega)]

theorem handsOnResults_fireNext (f : Frame) (g : GState) (p : Rat) (h : f.hasHand = true)
    (ha : f.autoTryRunning = false)
    (hc : ¬ f.now - g.lastGestureTime < GESTURE_COOLDOWN)
    (hp : g.previousHandX = some p)
    (h1 : f.x - p < -SWIPE_THRESHOLD) :
    handsOnResults f g =
      ({ previousHandX := none, lastGestureTime := f.now }, some SwipeDir.next) := by
  unfold handsOnResults
  rw [if_neg (by rw [h]; simp), if_neg (by rw [ha]; simp), if_neg hc]
  simp only [hp]
  rw [if_pos h1]
  rw [if_neg (by show ¬ (100 : Int) < f.now - f.now; omega)]

theorem handsOnResults_firePrev (f : Frame) (g : GState) (p : Rat) (h : f.hasHand = true)
    (ha : f.autoTryRunning = false)
    (hc : ¬ f.now - g.lastGestureTime < GESTURE_COOLDOWN)
    (hp : g.previousHandX = some p)
    (h1 : ¬ f.x - p < -SWIPE_THRESHOLD) (h2 : SWIPE_THRESHOLD < f.x - p) :
    handsOnResults f g =
      ({ previousHandX := none, lastGestureTime := f.now }, some SwipeDir.prev) := by
  unfold handsOnResults
  rw [if_neg (by rw [h]; simp), if_neg (by rw [ha]; simp), if_neg hc]
  simp only [hp]
  rw [if_neg h1, if_pos h2]
  rw [if_neg (by show ¬ (100 : Int) < f.now - f.now; omega)]

/-- C2: with the recognizer enabled (no auto-capture run active), the
gesture callback emits a swipe event on a frame if and only if a hand is
detected, a baseline position is tracked, the absolute difference between
the current and baseline horizontal positions strictly exceeds the 0.04
threshold, and at least the 800ms cooldown has elapsed since the last
emitted event. -/
theorem swipe_emitted_iff (f : Frame) (g : GState)
    (hauto : f.autoTryRunning = false) :
    (handsOnResults f g).2.isSome = true ↔
      (f.hasHand = true ∧
       (∃ p, g.previousHandX = some p ∧ SWIPE_THRESHOLD < |f.x - p|) ∧
       GESTURE_COOLDOWN ≤ f.now - g.lastGestureTime) := by
  cases hh : f.hasHand with
  | false =>
    rw [handsOnResults_noHand f g hh]
    simp
  | true =>
    by_cases hc : f.now - g.lastGestureTime < GESTURE_COOLDOWN
    · rw [handsOnResults_cooldown f g hh hauto hc]
      simp only [Option.isSome_none]
      constructor
      · intro habs; cases habs
      · rintro ⟨-, -, hcool⟩
        omega
    · cases hp : g.previousHandX with
      | none =>
        rw [handsOnResults_noBaseline f g hh hauto hc hp]
        simp
      | some p =>
        by_cases h1 : f.x - p < -SWIPE_THRESHOLD
        · rw [handsOnResults_fireNext f g p hh hauto hc hp h1]
          constructor
          · intro _
            exact ⟨rfl, ⟨p, rfl, lt_abs.mpr (Or.inr (by linarith))⟩, by omega⟩
          · intro _
            rfl
        · by_cases h2 : SWIPE_THRESHOLD < f.x - p
          · rw [handsOnResults_firePrev f g p hh hauto hc hp h1 h2]
            constructor
            · intro _
              exact ⟨rfl, ⟨p, rfl, lt_abs.mpr (Or.inl h2)⟩, by omega⟩
            · intro _
              rfl
          · rw [handsOnResults_noFire f g p hh hauto hc hp h1 h2]
            constructor
            · intro habs
              cases habs
            · rintro ⟨-, ⟨q, hq, habs⟩, -⟩
              injection hq with hq
              subst hq
              rcases lt_abs.mp habs with h | h
              · exact absurd h h2
              · exact absurd (by linarith : f.x - p < -SWIPE_THRESHOLD) h1

/-- Witness for C2 at a concrete input: baseline 0, current position 1,
cooldown long elapsed — an event is emitted. -/
theorem swipe_emitted_witness :
    (handsOnResults exSwipeFrame exSwipeG).2.isSome = true :=
  (swipe_emitted_iff exSwipeFrame exSwipeG rfl).mpr
    ⟨rfl, ⟨0, rfl, by norm_num [SWIPE_THRESHOLD, exSwipeFrame]⟩,
     by norm_num [GESTURE_COOLDOWN, exSwipeFrame, exSwipeG]⟩

/-- Whatever the frame, the callback either emits nothing and keeps
`lastGestureTime`, or emits an event, stamps `lastGestureTime := now`, and
the cooldown had elapsed since the previous stamp. -/
theorem handsOnResults_last (f : Frame) (g : GState) :
    ((handsOnResults f g).2 = none ∧
      (handsOnResults f g).1.lastGestureTime = g.lastGestureTime) ∨
    ((handsOnResults f g).2.isSome = true ∧
      (handsOnResults f g).1.lastGestureTime = f.now ∧
      g.lastGestureTime + GESTURE_COOLDOWN ≤ f.now) := by
  cases hh : f.hasHand with
  | false =>
    rw [handsOnResults_noHand f g hh]
    left; exact ⟨rfl, rfl⟩
  | true =>
    cases ha : f.autoTryRunning with
    | true =>
      rw [handsOnResults_autoRunning f g hh ha]
      left; exact ⟨rfl, rfl⟩
    | false =>
      by_cases hc : f.now - g.lastGestureTime < GESTURE_COOLDOWN
      · rw [handsOnResults_cooldown f g hh ha hc]
        left; exact ⟨rfl, rfl⟩
      · cases hp : g.previousHandX with
        | none =>
          rw [handsOnResults_noBaseline f g hh ha hc hp]
          left; exact ⟨rfl, rfl⟩
        | some p =>
          by_cases h1 : f.x - p < -SWIPE_THRESHOLD
          · rw [handsOnResults_fireNext f g p hh ha hc hp h1]
            right; exact ⟨rfl, rfl, by omega⟩
          · by_cases h2 : SWIPE_THRESHOLD < f.x - p
            · rw [handsOnResults_firePrev f g p hh ha hc hp h1 h2]
              right; exact ⟨rfl, rfl, by omega⟩
            · rw [handsOnResults_noFire f g p hh ha hc hp h1 h2]
              left; exact ⟨rfl, rfl⟩

/-- Cooldown invariant of a frame stream: the emitted event timestamps are
pairwise separated by at least the cooldown, and every one is at least a
cooldown after the incoming `lastGestureTime`. -/
theorem gestureRun_cooldown_inv (fs : List Frame) :
    ∀ g : GState,
      List.Pairwise (fun a b => a + GESTURE_COOLDOWN ≤ b) (gestureRun g fs).2 ∧
      (∀ t ∈ (gestureRun g fs).2, g.lastGestureTime + GESTURE_COOLDOWN ≤ t) := by
  have hC : (0 : Int) ≤ GESTURE_COOLDOWN := by unfold GESTURE_COOLDOWN; omega
  induction fs with
  | nil =>
    intro g
    simp [gestureRun]
  | cons f fs ih =>
    intro g
    obtain ⟨hnone, hlast⟩ | ⟨hsome, hstamp, hcool⟩ := handsOnResults_last f g
    · have hrw : gestureRun g (f :: fs) =
          ((gestureRun (handsOnResults f g).1 fs).1,
           (gestureRun (handsOnResults f g).1 fs).2) := by
        simp only [gestureRun, hnone]
        rfl
      rw [hrw]
      obtain ⟨ihp, ihb⟩ := ih (handsOnResults f g).1
      refine ⟨ihp, fun t ht => ?_⟩
      have := ihb t ht
      rw [hlast] at this
      exact this
    · obtain ⟨d, hd⟩ := Option.isSome_iff_exists.mp hsome
      have hrw : gestureRun g (f :: fs) =
          ((gestureRun (handsOnResults f g).1 fs).1,
           f.now :: (gestureRun (handsOnResults f g).1 fs).2) := by
        simp only [gestureRun, hd]
        rfl
      rw [hrw]
      obtain ⟨ihp, ihb⟩ := ih (handsOnResults f g).1
      constructor
      · rw [List.pairwise_cons]
        refine ⟨fun t ht => ?_, ihp⟩
        have := ihb t ht
        rw [hstamp] at this
        exact this
      · intro t ht
        rcases List.mem_cons.mp ht with h | h
        · rw [h]
          exact hcool
        · have := ihb t h
          rw [hstamp] at this
          omega

/-- C3: over any frame stream with monotonically non-decreasing timestamps,
the timestamps of any two emitted swipe events are separated by at least the
800ms cooldown. -/
theorem swipe_cooldown_separation (g : GState) (fs : List Frame)
    (_hmono : List.Chain' (fun a b => a.now ≤ b.now) fs) :
    List.Pairwise (fun a b => a + GESTURE_COOLDOWN ≤ b) (gestureRun g fs).2 :=
  (gestureRun_cooldown_inv fs g).1

/-- Witness for C3 at a concrete input: a monotone four-frame stream that
emits two events (at 1900 and 3000) satisfies the pairwise cooldown
separation. -/
theorem swipe_cooldown_separation_witness :
    List.Chain' (fun a b => a.now ≤ b.now) exFrames ∧
    List.Pairwise (fun a b => a + GESTURE_COOLDOWN ≤ b)
      (gestureRun initGState exFrames).2 := by
  have hmono : List.Chain' (fun a b => a.now ≤ b.now) exFrames := by
    unfold exFrames
    rw [List.chain'_cons, List.chain'_cons, List.chain'_cons]
    exact ⟨by decide, by decide, by decide, List.chain'_singleton _⟩
  exact ⟨hmono, swipe_cooldown_separation initGState exFrames hmono⟩

end Gesture

end AurumAtelier
